import Mathlib

/-!
Verification of the Live View tab controller of the qua-dashboards
video-mode application (`live_view_tab_controller.py`), together with the
versioned shared-data registry contract it relies on.

The Dash callback bodies are embedded as pure Lean functions: the side
effects a handler performs on the data acquirer are made explicit as a
list of emitted acquirer operations, and the Dash component properties a
handler returns are collected in a record.  Parts of the repository that
the controller calls into but whose modules are not among the source
files (the data registry and the acquirer's own state machine) are
modelled from the specification and marked as such.
-/

set_option maxRecDepth 4000

namespace QuaDashboards

/-- Snapshot returned by the data acquirer's `get_latest_data()`, as the
handler consumes it: `acquirer_state.get("status", "unknown")` and
`acquirer_state.get("error")`.  A missing dictionary entry is `none`. -/
structure AcquirerSnapshot where
  status : Option String
  error : Option String
deriving DecidableEq

/-- ASCII upper-casing of a string, character by character; embeds Python's
`str.upper()` on the ASCII status strings this module handles. -/
def pyUpper (s : String) : String :=
  ⟨s.data.map Char.toUpper⟩

/-- The normalised status string the handler computes:
`acquirer_state.get("status", "unknown").upper()`. -/
def reportedStatus (snap : AcquirerSnapshot) : String :=
  pyUpper (snap.status.getD "unknown")

/-- Lifecycle operations the Live View handlers can invoke on the data
acquirer (`start_acquisition()` / `stop_acquisition()`). -/
inductive AcqOp where
  | startAcquisition
  | stopAcquisition
deriving DecidableEq

/-- Modelled from the spec: the Data Acquirer module is not among the
source files; section 4.2 gives its status set {STOPPED, RUNNING, ERROR}. -/
inductive AcqStatus where
  | stopped
  | running
  | error
deriving DecidableEq

/-- Modelled from the spec: effect of one lifecycle call on the acquirer
status (start transitions to RUNNING, stop transitions to STOPPED). -/
def applyAcqOp : AcqStatus → AcqOp → AcqStatus
  | _, AcqOp.startAcquisition => AcqStatus.running
  | _, AcqOp.stopAcquisition => AcqStatus.stopped

/-- Effect of a sequence of lifecycle calls on the acquirer status. -/
def applyAcqOps (s : AcqStatus) (ops : List AcqOp) : AcqStatus :=
  ops.foldl applyAcqOp s

/-- The four Dash outputs of the toggle/status callback (button children,
button color, badge children, badge color) plus the acquirer operations the
callback body performed. -/
structure HandlerOutput where
  buttonText : String
  buttonColor : String
  statusText : String
  statusColor : String
  ops : List AcqOp
deriving DecidableEq

/-- The status badge text built in the ERROR branch before truncation:
the f-string appends a detail only when `error_details` is truthy
(a Python `None` or empty string contributes nothing). -/
def errorStatusText (errorDetails : Option String) : String :=
  "ERROR" ++
    match errorDetails with
    | some d => if d = "" then "" else ": " ++ d
    | none => ""

/-- Embedding of `handle_acquisition_control_and_status_update`: the
callback inspects whether the trigger was the toggle button, reads the
acquirer snapshot, and on a click stops (when the reported status is
RUNNING) or starts (otherwise) the acquisition, while on any other trigger
it only reflects the reported status into the button and badge. -/
def handle_acquisition_control_and_status_update
    (isButtonClick : Bool) (snap : AcquirerSnapshot) : HandlerOutput :=
  let currentStatus := reportedStatus snap
  let errorDetails := snap.error
  if isButtonClick then
    if currentStatus = "RUNNING" then
      { buttonText := "Start Acquisition", buttonColor := "success"
        statusText := "STOPPED", statusColor := "secondary"
        ops := [AcqOp.stopAcquisition] }
    else
      { buttonText := "Stop Acquisition", buttonColor := "danger"
        statusText := "RUNNING", statusColor := "success"
        ops := [AcqOp.startAcquisition] }
  else
    if currentStatus = "RUNNING" then
      { buttonText := "Stop Acquisition", buttonColor := "danger"
        statusText := "RUNNING", statusColor := "success", ops := [] }
    else if currentStatus = "STOPPED" then
      { buttonText := "Start Acquisition", buttonColor := "success"
        statusText := "STOPPED", statusColor := "secondary", ops := [] }
    else if currentStatus = "ERROR" then
      { buttonText := "Start Acquisition", buttonColor := "success"
        statusText := (errorStatusText errorDetails).take 100
        statusColor := "danger", ops := [] }
    else
      { buttonText := "Start Acquisition", buttonColor := "warning"
        statusText := currentStatus, statusColor := "warning", ops := [] }

/-- Modelled from the spec: the reserved registry key under which the
running acquisition publishes frames (the `data_registry` module is not
among the source files; section 3 gives "live" as its exemplar value). -/
def LIVE_DATA_KEY : String := "live"

/-- The payload written to the shared viewer's data store: which registry
key and version the viewer should display. -/
structure ViewerDataPayload where
  key : String
  version : String
deriving DecidableEq

/-- The mapping of shared-store updates returned by `on_tab_activated`,
keyed by the viewer-data, viewer-UI-state and viewer-layout-config store
suffixes of the orchestrator. -/
structure TabActivationUpdates where
  viewerData : ViewerDataPayload
  viewerUiState : List (String × String)
  viewerLayoutConfig : List (String × String)
deriving DecidableEq

/-- Embedding of `on_tab_activated`: reads the registry's current version
for the live-data key (passed in as `currentVersionInRegistry`), substitutes
a freshly generated UUID string (passed in as `freshUuid`) when the key was
never written, and returns the three shared-store updates. -/
def on_tab_activated (currentVersionInRegistry : Option String)
    (freshUuid : String) : TabActivationUpdates :=
  let currentLiveVersion :=
    match currentVersionInRegistry with
    | some v => v
    | none => freshUuid
  { viewerData := { key := LIVE_DATA_KEY, version := currentLiveVersion }
    viewerUiState := []
    viewerLayoutConfig := [] }

/-- Embedding of `on_tab_deactivated`: its body only logs; the list of
acquirer operations it performs is empty. -/
def on_tab_deactivated : List AcqOp := []

/-- Modelled from the spec: the process-wide data registry (section 4.1);
the `data_registry` module is not among the source files.  Each key maps to
its latest payload and a version stamp that increases on every write. -/
structure DataRegistry (α : Type) where
  entries : List (String × α × Nat)

/-- Modelled from the spec: `get_current_version(key)` returns the version
of the latest write to `key`, or `none` when the key was never written. -/
def DataRegistry.get_current_version {α : Type} (r : DataRegistry α)
    (key : String) : Option Nat :=
  (r.entries.find? (fun e => e.1 == key)).map (fun e => e.2.2)

/-- Modelled from the spec: `read(key)` returns the latest
(payload, version) snapshot, or `none` (`NotFound`) when the key was never
written. -/
def DataRegistry.read {α : Type} (r : DataRegistry α) (key : String) :
    Option (α × Nat) :=
  (r.entries.find? (fun e => e.1 == key)).map (fun e => e.2)

/-- Modelled from the spec: `write(key, payload)` stores the payload under
the key with a version distinct from (here: one larger than) the previous
version for that key, overwriting any earlier entry, and returns the new
version. -/
def DataRegistry.write {α : Type} (r : DataRegistry α) (key : String)
    (payload : α) : DataRegistry α × Nat :=
  let newVersion :=
    match r.get_current_version key with
    | some v => v + 1
    | none => 0
  (⟨(key, payload, newVersion) :: r.entries.filter (fun e => !(e.1 == key))⟩,
    newVersion)

/-- The toggle-button and status-badge properties that `get_layout` renders
initially. -/
structure LayoutControls where
  buttonText : String
  buttonColor : String
  badgeText : String
  badgeColor : String
deriving DecidableEq

/-- Embedding of `get_layout` restricted to the toggle button and status
badge it renders: the source builds them from string literals and never
consults the acquirer snapshot passed here as `_snap`. -/
def get_layout (_snap : AcquirerSnapshot) : LayoutControls :=
  { buttonText := "Start Acquisition"
    buttonColor := "success"
    badgeText := "STOPPED"
    badgeColor := "secondary" }

/-- The id metadata attached to a parameter widget, as
`_parse_component_parameters` inspects it: either a dict, whose "index"
entry (when the key is present) is the parameter name, or a non-dict
value. -/
inductive ParamId where
  | dictId (index : Option String)
  | nonDict
deriving DecidableEq

/-- Python-dict insertion on an association list: overwrites the value in
place when the key is already present, appends the pair otherwise. -/
def dictInsert {α : Type} : List (String × α) → String → α → List (String × α)
  | [], k, v => [(k, v)]
  | (k', v') :: rest, k, v =>
    if k' = k then (k', v) :: rest else (k', v') :: dictInsert rest k v

/-- Python-dict lookup on an association list. -/
def dictGet {α : Type} : List (String × α) → String → Option α
  | [], _ => none
  | (k', v') :: rest, k => if k' = k then some v' else dictGet rest k

/-- Folding a list of (key, value) pairs into a dict, left to right. -/
def dictInsertAll {α : Type} (m : List (String × α))
    (ps : List (String × α)) : List (String × α) :=
  ps.foldl (fun acc p => dictInsert acc p.1 p.2) m

/-- The enumeration loop of `_parse_component_parameters`: for each id in
order, a dict id with an "index" entry whose position also carries a value
stores that (name, value) pair; a malformed id or a missing value is logged
and skipped, and the loop continues with the rest of the batch. -/
def parseParamsLoop {α : Type} (values : List α) :
    List ParamId → Nat → List (String × α) → List (String × α)
  | [], _, acc => acc
  | pid :: rest, idx, acc =>
    match pid with
    | ParamId.dictId (some name) =>
      match values[idx]? with
      | some v => parseParamsLoop values rest (idx + 1) (dictInsert acc name v)
      | none => parseParamsLoop values rest (idx + 1) acc
    | _ => parseParamsLoop values rest (idx + 1) acc

/-- Embedding of the static method `_parse_component_parameters`: an empty
values or ids batch yields the empty dict, otherwise the ids are enumerated
against the values. -/
def parse_component_parameters {α : Type} (values : List α)
    (ids : List ParamId) : List (String × α) :=
  if values.isEmpty || ids.isEmpty then [] else parseParamsLoop values ids 0 []

/-- The well-formed (parameter name, value) pairs of a batch: ids paired
positionally with values, keeping those whose id is a dict carrying an
"index" entry. -/
def wellFormedPairs {α : Type} (values : List α) (ids : List ParamId) :
    List (String × α) :=
  (ids.zip values).filterMap fun p =>
    match p.1 with
    | ParamId.dictId (some name) => some (name, p.2)
    | _ => none

/-- One sub-component's contribution to the parameter-update callback: its
component id together with the widget values and widget ids Dash collected
for it. -/
structure ComponentInputs (α : Type) where
  componentId : String
  values : List α
  ids : List ParamId
deriving DecidableEq

/-- The grouped mapping `parameters_to_update` built by
`handle_acquirer_parameter_update`: component id to that component's parsed
parameters, with components contributing no parsed parameters skipped. -/
def parameters_to_update {α : Type} (components : List (ComponentInputs α)) :
    List (String × List (String × α)) :=
  components.foldl
    (fun acc c =>
      let ps := parse_component_parameters c.values c.ids
      if ps.isEmpty then acc else dictInsert acc c.componentId ps)
    []

/-- The non-empty contributions of the components, in order: the pairs the
grouping loop inserts. -/
def contributions {α : Type} (components : List (ComponentInputs α)) :
    List (String × List (String × α)) :=
  components.filterMap fun c =>
    let ps := parse_component_parameters c.values c.ids
    if ps.isEmpty then none else some (c.componentId, ps)

/-- The calls the parameter callback performs on the data acquirer. -/
inductive AcquirerParamCall (α : Type) where
  | updateParameters (updates : List (String × List (String × α)))
deriving DecidableEq

/-- Embedding of `handle_acquirer_parameter_update`: builds the grouped
mapping and forwards it to the acquirer in one `update_parameters` call. -/
def handle_acquirer_parameter_update {α : Type}
    (components : List (ComponentInputs α)) : List (AcquirerParamCall α) :=
  [AcquirerParamCall.updateParameters (parameters_to_update components)]

/-! Helper lemmas about the dict operations and the parsing loop. -/

theorem dictGet_dictInsert_self {α : Type} (m : List (String × α))
    (k : String) (v : α) : dictGet (dictInsert m k v) k = some v := by
  induction m with
  | nil => simp [dictInsert, dictGet]
  | cons p rest ih =>
    obtain ⟨k', v'⟩ := p
    by_cases h : k' = k <;> simp [dictInsert, dictGet, h, ih]

theorem dictGet_dictInsert_ne {α : Type} (m : List (String × α))
    (k k' : String) (v : α) (h : k' ≠ k) :
    dictGet (dictInsert m k v) k' = dictGet m k' := by
  induction m with
  | nil => simp [dictInsert, dictGet, Ne.symm h]
  | cons p rest ih =>
    obtain ⟨a, b⟩ := p
    by_cases ha : a = k
    · subst ha
      simp [dictInsert, dictGet, Ne.symm h]
    · by_cases ha' : a = k' <;> simp [dictInsert, dictGet, h, ha, ha', ih]

theorem dictInsertAll_cons {α : Type} (m : List (String × α))
    (p : String × α) (ps : List (String × α)) :
    dictInsertAll m (p :: ps) = dictInsertAll (dictInsert m p.1 p.2) ps := rfl

theorem dictInsertAll_append {α : Type} (m l₁ l₂ : List (String × α)) :
    dictInsertAll m (l₁ ++ l₂) = dictInsertAll (dictInsertAll m l₁) l₂ := by
  simp [dictInsertAll, List.foldl_append]

theorem dictGet_dictInsertAll_not_mem {α : Type} (ps : List (String × α)) :
    ∀ (m : List (String × α)) (k : String), k ∉ ps.map Prod.fst →
      dictGet (dictInsertAll m ps) k = dictGet m k := by
  induction ps with
  | nil => intro m k _; rfl
  | cons p rest ih =>
    intro m k hk
    simp only [List.map_cons, List.mem_cons, not_or] at hk
    rw [dictInsertAll_cons, ih _ k hk.2, dictGet_dictInsert_ne _ _ _ _ hk.1]

theorem dictGet_dictInsertAll_of_mem {α : Type} (ps : List (String × α))
    (hnd : (ps.map Prod.fst).Nodup) (p : String × α) (hp : p ∈ ps) :
    dictGet (dictInsertAll [] ps) p.1 = some p.2 := by
  obtain ⟨l₁, l₂, rfl⟩ := List.append_of_mem hp
  have hnotin : p.1 ∉ l₂.map Prod.fst := by
    rw [List.map_append, List.map_cons] at hnd
    exact (List.nodup_append.mp hnd).2.1.not_mem
  rw [dictInsertAll_append, dictInsertAll_cons,
    dictGet_dictInsertAll_not_mem _ _ _ hnotin, dictGet_dictInsert_self]

theorem parseParamsLoop_eq_insertAll {α : Type} (values : List α) :
    ∀ (ids : List ParamId) (idx : Nat) (acc : List (String × α)),
      parseParamsLoop values ids idx acc =
        dictInsertAll acc (wellFormedPairs (values.drop idx) ids) := by
  intro ids
  induction ids with
  | nil => intro idx acc; simp [parseParamsLoop, wellFormedPairs, dictInsertAll]
  | cons pid rest ih =>
    intro idx acc
    rcases hv : values[idx]? with _ | v
    · have hlen : values.length ≤ idx := List.getElem?_eq_none_iff.mp hv
      have hdrop : values.drop idx = [] := List.drop_eq_nil_of_le hlen
      have hdrop' : values.drop (idx + 1) = [] :=
        List.drop_eq_nil_of_le (Nat.le_succ_of_le hlen)
      cases pid with
      | dictId idxField =>
        cases idxField with
        | none =>
          simp only [parseParamsLoop, ih, hdrop, hdrop', wellFormedPairs,
            List.zip_nil_right]
        | some name =>
          simp only [parseParamsLoop, hv, ih, hdrop, hdrop', wellFormedPairs,
            List.zip_nil_right]
      | nonDict =>
        simp only [parseParamsLoop, ih, hdrop, hdrop', wellFormedPairs,
          List.zip_nil_right]
    · obtain ⟨hlt, hval⟩ := List.getElem?_eq_some.mp hv
      have hdrop : values.drop idx = v :: values.drop (idx + 1) := by
        rw [List.drop_eq_getElem_cons hlt, hval]
      cases pid with
      | dictId idxField =>
        cases idxField with
        | none =>
          simp only [parseParamsLoop, ih, hdrop, wellFormedPairs,
            List.zip_cons_cons, List.filterMap_cons]
        | some name =>
          simp only [parseParamsLoop, hv, ih, hdrop, wellFormedPairs,
            List.zip_cons_cons, List.filterMap_cons, dictInsertAll_cons]
      | nonDict =>
        simp only [parseParamsLoop, ih, hdrop, wellFormedPairs,
          List.zip_cons_cons, List.filterMap_cons]

theorem parse_component_parameters_eq {α : Type} (values : List α)
    (ids : List ParamId) :
    parse_component_parameters values ids =
      dictInsertAll [] (wellFormedPairs values ids) := by
  unfold parse_component_parameters
  split
  · rename_i hguard
    rcases Bool.or_eq_true_iff.mp hguard with h | h
    · rw [List.isEmpty_iff.mp h]
      simp [wellFormedPairs, dictInsertAll]
    · rw [List.isEmpty_iff.mp h]
      simp [wellFormedPairs, dictInsertAll]
  · rw [parseParamsLoop_eq_insertAll, List.drop_zero]

theorem parameters_to_update_eq_insertAll {α : Type} :
    ∀ (components : List (ComponentInputs α))
      (m : List (String × List (String × α))),
      components.foldl
          (fun acc c =>
            let ps := parse_component_parameters c.values c.ids
            if ps.isEmpty then acc else dictInsert acc c.componentId ps)
          m
        = dictInsertAll m (contributions components) := by
  intro components
  induction components with
  | nil => intro m; rfl
  | cons c rest ih =>
    intro m
    by_cases hps : (parse_component_parameters c.values c.ids).isEmpty
    · simp only [List.foldl_cons, contributions, List.filterMap_cons, hps,
        if_true, ih]
    · simp only [List.foldl_cons, contributions, List.filterMap_cons, hps,
        if_false, ih]
      rfl

theorem contributions_keys_sublist {α : Type}
    (components : List (ComponentInputs α)) :
    ((contributions components).map Prod.fst).Sublist
      (components.map ComponentInputs.componentId) := by
  induction components with
  | nil => simp [contributions]
  | cons c rest ih =>
    by_cases hps : (parse_component_parameters c.values c.ids).isEmpty
    · simp only [contributions, List.filterMap_cons, hps, if_true,
        List.map_cons]
      exact ih.cons _
    · simp only [contributions, List.filterMap_cons, hps, if_false,
        List.map_cons]
      exact ih.cons₂ _

/-! The claims. -/

/-- C1: on a toggle-button click, the handler stops the acquisition and
shows the start button and STOPPED badge when the reported status is
RUNNING, and otherwise starts the acquisition and shows the stop button and
RUNNING badge. -/
theorem toggle_click_starts_or_stops (snap : AcquirerSnapshot) :
    (reportedStatus snap = "RUNNING" →
      handle_acquisition_control_and_status_update true snap =
        { buttonText := "Start Acquisition", buttonColor := "success"
          statusText := "STOPPED", statusColor := "secondary"
          ops := [AcqOp.stopAcquisition] }) ∧
    (reportedStatus snap ≠ "RUNNING" →
      handle_acquisition_control_and_status_update true snap =
        { buttonText := "Stop Acquisition", buttonColor := "danger"
          statusText := "RUNNING", statusColor := "success"
          ops := [AcqOp.startAcquisition] }) := by
  constructor <;> intro h <;>
    simp [handle_acquisition_control_and_status_update, h]

/-- Witness for C1 at a concrete snapshot whose reported status is
RUNNING. -/
theorem toggle_click_starts_or_stops_witness :
    handle_acquisition_control_and_status_update true
        { status := some "running", error := none } =
      { buttonText := "Start Acquisition", buttonColor := "success"
        statusText := "STOPPED", statusColor := "secondary"
        ops := [AcqOp.stopAcquisition] } :=
  (toggle_click_starts_or_stops { status := some "running", error := none }).1
    (by decide)

/-- C2: on any trigger that is not the button click, the handler performs
no acquirer operation at all, so any acquirer status is left unchanged by
the calls it emits. -/
theorem status_refresh_is_read_only (snap : AcquirerSnapshot) :
    (handle_acquisition_control_and_status_update false snap).ops = [] ∧
    ∀ s : AcqStatus,
      applyAcqOps s (handle_acquisition_control_and_status_update false snap).ops
        = s := by
  have hops : (handle_acquisition_control_and_status_update false snap).ops = [] := by
    simp only [handle_acquisition_control_and_status_update]
    repeat' split
    all_goals simp_all
  exact ⟨hops, fun s => by rw [hops]; rfl⟩

/-- C3: on a non-click trigger with reported status ERROR, the handler
resets the button to "Start Acquisition"/"success" and shows a danger badge
whose text is the ERROR message truncated to 100 characters; the text always
starts with "ERROR" and, when a non-empty detail is present, carries
"ERROR: " followed by the detail (before truncation). -/
theorem error_status_display (snap : AcquirerSnapshot)
    (h : reportedStatus snap = "ERROR") :
    handle_acquisition_control_and_status_update false snap =
      { buttonText := "Start Acquisition", buttonColor := "success"
        statusText := (errorStatusText snap.error).take 100
        statusColor := "danger", ops := [] } ∧
    (handle_acquisition_control_and_status_update false snap).statusText.length
      ≤ 100 ∧
    (handle_acquisition_control_and_status_update false snap).statusText.take 5
      = "ERROR" ∧
    ∀ d, snap.error = some d → d ≠ "" →
      (handle_acquisition_control_and_status_update false snap).statusText =
        ("ERROR: " ++ d).take 100 := by
  have h1 : handle_acquisition_control_and_status_update false snap =
      { buttonText := "Start Acquisition", buttonColor := "success"
        statusText := (errorStatusText snap.error).take 100
        statusColor := "danger", ops := [] } := by
    simp [handle_acquisition_control_and_status_update, h]
  have hst : (handle_acquisition_control_and_status_update false snap).statusText
      = (errorStatusText snap.error).take 100 := by rw [h1]
  refine ⟨h1, ?_, ?_, ?_⟩
  · rw [hst, String.take_eq, String.length_mk]
    exact List.length_take_le _ _
  · obtain ⟨rest, hr⟩ : ∃ rest, errorStatusText snap.error = "ERROR" ++ rest :=
      ⟨_, rfl⟩
    rw [hst, hr]
    apply String.ext
    rw [String.data_take, String.data_take, List.take_take]
    rw [(by decide : min 5 100 = 5), String.data_append]
    exact List.take_left' (by decide)
  · intro d hd hne
    have hsfx : errorStatusText (some d) = "ERROR: " ++ d := by
      apply String.ext
      simp [errorStatusText, hne, String.data_append]
    rw [hst, hd, hsfx]

/-- Witness for C3 at a concrete snapshot in ERROR state with a short
error detail. -/
theorem error_status_display_witness :
    handle_acquisition_control_and_status_update false
        { status := some "error", error := some "boom" } =
      { buttonText := "Start Acquisition", buttonColor := "success"
        statusText := (errorStatusText (some "boom")).take 100
        statusColor := "danger", ops := [] } :=
  (error_status_display { status := some "error", error := some "boom" }
    (by decide)).1

/-- C4: in every parameter batch, a malformed id entry is skipped on its
own: when the well-formed parameter names are distinct, every well-formed
(name, value) pair of the batch is present in the parsed result, and a name
carried by no well-formed entry (in particular one only carried by a
malformed entry) is absent from it. -/
theorem parse_skips_malformed_keeps_wellformed {α : Type} (values : List α)
    (ids : List ParamId)
    (hnd : ((wellFormedPairs values ids).map Prod.fst).Nodup) :
    (∀ p ∈ wellFormedPairs values ids,
        dictGet (parse_component_parameters values ids) p.1 = some p.2) ∧
    (∀ name, name ∉ (wellFormedPairs values ids).map Prod.fst →
        dictGet (parse_component_parameters values ids) name = none) := by
  rw [parse_component_parameters_eq]
  refine ⟨fun p hp => dictGet_dictInsertAll_of_mem _ hnd p hp, fun name hn => ?_⟩
  rw [dictGet_dictInsertAll_not_mem _ _ _ hn]
  rfl

/-- Witness for C4: a batch of five values whose ids hold four well-formed
entries and one malformed entry; a well-formed pair after the malformed one
is still parsed. -/
theorem parse_skips_malformed_keeps_wellformed_witness :
    dictGet
        (parse_component_parameters [10, 20, 30, 40, 50]
          [ParamId.dictId (some "a"), ParamId.nonDict,
            ParamId.dictId (some "c"), ParamId.dictId (some "d"),
            ParamId.dictId (some "e")])
        "c" = some 30 :=
  (parse_skips_malformed_keeps_wellformed [10, 20, 30, 40, 50]
    [ParamId.dictId (some "a"), ParamId.nonDict, ParamId.dictId (some "c"),
      ParamId.dictId (some "d"), ParamId.dictId (some "e")]
    (by decide)).1 ("c", 30) (by decide)

/-- C5: the parameter callback forwards one single `update_parameters` call
carrying the grouped mapping; under distinct component ids, a component
whose batch parses to a non-empty parameter dict is mapped to exactly that
dict, a component whose batch parses to the empty dict is omitted, and a
key belonging to no component is absent. -/
theorem parameter_update_groups_and_forwards {α : Type}
    (components : List (ComponentInputs α))
    (hnd : (components.map ComponentInputs.componentId).Nodup) :
    handle_acquirer_parameter_update components =
      [AcquirerParamCall.updateParameters (parameters_to_update components)] ∧
    (∀ c ∈ components,
        parse_component_parameters c.values c.ids ≠ [] →
          dictGet (parameters_to_update components) c.componentId =
            some (parse_component_parameters c.values c.ids)) ∧
    (∀ c ∈ components,
        parse_component_parameters c.values c.ids = [] →
          dictGet (parameters_to_update components) c.componentId = none) ∧
    (∀ k, k ∉ components.map ComponentInputs.componentId →
        dictGet (parameters_to_update components) k = none) := by
  have hkeys : ((contributions components).map Prod.fst).Nodup :=
    (contributions_keys_sublist components).nodup hnd
  have heq : parameters_to_update components =
      dictInsertAll [] (contributions components) :=
    parameters_to_update_eq_insertAll components []
  refine ⟨rfl, ?_, ?_, ?_⟩
  · intro c hc hne
    have hmem : (c.componentId, parse_component_parameters c.values c.ids)
        ∈ contributions components := by
      apply List.mem_filterMap.mpr
      refine ⟨c, hc, ?_⟩
      simp only [List.isEmpty_iff, hne, if_false]
    rw [heq]
    exact dictGet_dictInsertAll_of_mem _ hkeys _ hmem
  · intro c hc hempty
    have hnotin : c.componentId ∉ (contributions components).map Prod.fst := by
      intro hmem
      obtain ⟨p, hp, hp1⟩ := List.mem_map.mp hmem
      obtain ⟨c', hc', hfc'⟩ := List.mem_filterMap.mp hp
      by_cases hps : (parse_component_parameters c'.values c'.ids).isEmpty
      · rw [if_pos hps] at hfc'
        exact Option.noConfusion hfc'
      · rw [if_neg hps] at hfc'
        have hcid : c'.componentId = c.componentId := by
          have : p.1 = c'.componentId := by rw [← Option.some_inj.mp hfc']
          rw [← hp1, this]
        have hcc : c' = c := List.inj_on_of_nodup_map hnd hc' hc hcid
        rw [hcc, hempty] at hps
        exact hps rfl
    rw [heq, dictGet_dictInsertAll_not_mem _ _ _ hnotin]
    rfl
  · intro k hk
    have hnotin : k ∉ (contributions components).map Prod.fst :=
      fun hmem => hk ((contributions_keys_sublist components).subset hmem)
    rw [heq, dictGet_dictInsertAll_not_mem _ _ _ hnotin]
    rfl

/-- Witness for C5: two components with distinct ids, the first
contributing one parameter and the second contributing none; the grouped
mapping contains the first and omits the second. -/
theorem parameter_update_groups_and_forwards_witness :
    dictGet
        (parameters_to_update
          [⟨"acquirer", [7], [ParamId.dictId (some "span")]⟩,
            ⟨"sweeper", [], ([] : List ParamId)⟩])
        "acquirer" = some [("span", 7)] :=
  (parameter_update_groups_and_forwards
      [⟨"acquirer", [7], [ParamId.dictId (some "span")]⟩,
        ⟨"sweeper", [], ([] : List ParamId)⟩]
      (by decide)).2.1
    ⟨"acquirer", [7], [ParamId.dictId (some "span")]⟩ (by decide) (by decide)

/-- C6: every activation points the shared viewer's data pointer at the
reserved live-data key with a version for it (the registry's current
version when present, the fresh placeholder otherwise), and resets the
viewer UI state and layout configuration to empty mappings. -/
theorem on_tab_activated_sets_viewer_stores (reg : Option String)
    (uuid : String) :
    (on_tab_activated reg uuid).viewerData.key = LIVE_DATA_KEY ∧
    (on_tab_activated reg uuid).viewerData.version = reg.getD uuid ∧
    (on_tab_activated reg uuid).viewerUiState = [] ∧
    (on_tab_activated reg uuid).viewerLayoutConfig = [] := by
  cases reg <;> simp [on_tab_activated]

/-- C7: deactivating the Live View tab performs no acquirer operation, so
the acquirer status is unchanged by the (empty) sequence of calls it
emits. -/
theorem on_tab_deactivated_preserves_acquirer :
    on_tab_deactivated = ([] : List AcqOp) ∧
    ∀ s : AcqStatus, applyAcqOps s on_tab_deactivated = s :=
  ⟨rfl, fun _ => rfl⟩

/-- C8: when the live-data key has never been written (the registry reports
no current version), activation still returns the full store-update
mapping, with the fresh placeholder UUID as the viewer's version. -/
theorem on_tab_activated_registry_miss (reg : Option String) (uuid : String)
    (h : reg = none) :
    on_tab_activated reg uuid =
      { viewerData := { key := LIVE_DATA_KEY, version := uuid }
        viewerUiState := []
        viewerLayoutConfig := [] } := by
  subst h
  rfl

/-- Witness for C8 at a concrete placeholder UUID. -/
theorem on_tab_activated_registry_miss_witness :
    on_tab_activated none "3f2b8c1e-0000-4000-8000-000000000000" =
      { viewerData := { key := LIVE_DATA_KEY
                        version := "3f2b8c1e-0000-4000-8000-000000000000" }
        viewerUiState := []
        viewerLayoutConfig := [] } :=
  on_tab_activated_registry_miss none "3f2b8c1e-0000-4000-8000-000000000000"
    rfl

/-- C9: a read of a key right after a write of that key returns exactly the
written payload paired with the version that the write itself returned, so
the payload and version in a single read are mutually consistent. -/
theorem read_after_write {α : Type} (r : DataRegistry α) (key : String)
    (payload : α) :
    ((r.write key payload).1).read key =
      some (payload, (r.write key payload).2) := by
  simp [DataRegistry.read, DataRegistry.write, List.find?]

/-- C10: the rendered layout always shows the initial
"Start Acquisition"/"success" button and "STOPPED"/"secondary" badge,
whatever the acquirer's actual status at render time; in particular two
renders at different acquirer states are identical. -/
theorem get_layout_initial_controls (snap : AcquirerSnapshot) :
    get_layout snap =
      { buttonText := "Start Acquisition", buttonColor := "success"
        badgeText := "STOPPED", badgeColor := "secondary" } ∧
    ∀ snap' : AcquirerSnapshot, get_layout snap = get_layout snap' :=
  ⟨rfl, fun _ => rfl⟩

end QuaDashboards
